import Mathlib

/-!
# Canteen-Management: Order & Pricing Engine, shallow embedding

A shallow embedding of the core of `src/main.py` (the Order & Pricing
Engine): offer applicability and best-discount selection
(`calculate_discounted_price`, `DatabaseHandler.get_active_offers_for_item`),
order creation with random-token allocation
(`DatabaseHandler._generate_unique_token`, `DatabaseHandler.create_order`,
`Order.create`), status updates (`DatabaseHandler.update_order_status`)
and revenue aggregation (`DatabaseHandler.revenue_per_day`).

Modelling conventions:
* Python floats are modelled as exact rationals (`ℚ`).
* Python's `round(x, 2)` and the `:.0f` / `:.2f` format specifiers round
  half to even; `roundHalfEven` mirrors that.
* SQL rows become Lean structures; `NULL`able columns become `Option`.
  Dates (`start_date`, `end_date`) are ISO `YYYY-MM-DD` strings compared
  lexicographically, exactly as SQLite compares the TEXT columns.
* The random stream consumed by `random.randint(1000, 9999)` is an
  explicit list of draws; exhausting the list models the `while True`
  loop still spinning (the Python loop has no other exit but success).
* `datetime.now()` is an explicit parameter (`timestamp`, `current_date`,
  `current_day`), sampled once per call as in the source.
-/

set_option allowUnsafeReducibility true

attribute [local semireducible] Rat.add Rat.mul Rat.sub Rat.inv Rat.div Rat.neg

/-- Discount type of an offer (the `discount_type` column of the
`offers` table: `PERCENTAGE` or `FIXED`). -/
inductive DiscountType
  | PERCENTAGE
  | FIXED
deriving DecidableEq, Repr

/-- A row of the `offers` table, as returned by
`DatabaseHandler.get_active_offers_for_item` / `list_offers`. -/
structure Offer where
  offer_id : Int
  offer_name : String
  item_id : Option Int
  discount_type : DiscountType
  discount_value : ℚ
  start_date : Option String
  end_date : Option String
  day_of_week : Option String
  active : Bool
deriving DecidableEq, Repr

/-- The per-offer discount amount computed inside the loop of
`calculate_discounted_price` (src/main.py:149-153):
`original_price * (discount_value / 100)` for `PERCENTAGE`,
`discount_value` for `FIXED`. -/
def discountAmount (original_price : ℚ) (offer : Offer) : ℚ :=
  match offer.discount_type with
  | .PERCENTAGE => original_price * (offer.discount_value / 100)
  | .FIXED => offer.discount_value

/-- The selection loop of `calculate_discounted_price`
(src/main.py:146-157): `best_offer`/`best_discount` start at
`(None, 0.0)` and are overwritten whenever `discount > best_discount`. -/
def bestOfferAux (original_price : ℚ) :
    List Offer → Option Offer → ℚ → Option Offer × ℚ
  | [], best_offer, best_discount => (best_offer, best_discount)
  | offer :: rest, best_offer, best_discount =>
      let discount := discountAmount original_price offer
      if best_discount < discount then
        bestOfferAux original_price rest (some offer) discount
      else
        bestOfferAux original_price rest best_offer best_discount

/-- Round a rational to the nearest integer, ties to even: the rounding
used by Python's `round` builtin and by the `:.0f`/`:.2f` fixed-point
format specifiers. -/
def roundHalfEven (q : ℚ) : ℤ :=
  if q - ⌊q⌋ < 1 / 2 then ⌊q⌋
  else if 1 / 2 < q - ⌊q⌋ then ⌊q⌋ + 1
  else if ⌊q⌋ % 2 = 0 then ⌊q⌋ else ⌊q⌋ + 1

/-- Python's `round(x, 2)`: round to 2 decimal places, half to even. -/
def round2 (q : ℚ) : ℚ :=
  (roundHalfEven (q * 100) : ℚ) / 100

/-- Python's `f"{v:.0f}"` for the values at hand (nonnegative discount
values): the value rounded to an integer, no decimal point. -/
def formatFixed0 (v : ℚ) : String :=
  toString (roundHalfEven v)

/-- Python's `f"{v:.2f}"`: the value rounded to two decimal places with
exactly two digits after the decimal point. -/
def formatFixed2 (v : ℚ) : String :=
  let n := roundHalfEven (v * 100)
  let sign := if n < 0 then "-" else ""
  let m := n.natAbs
  sign ++ toString (m / 100) ++ "." ++
    (if m % 100 < 10 then "0" else "") ++ toString (m % 100)

/-- The description string built for the selected offer
(src/main.py:161-165): `"<offer_name>: <value>% off"` (value with 0
decimals) for `PERCENTAGE`, `"<offer_name>: Rs <value> off"` (value with
2 decimals) for `FIXED`. -/
def offerDesc (offer : Offer) : String :=
  offer.offer_name ++ ": " ++
    (match offer.discount_type with
     | .PERCENTAGE => formatFixed0 offer.discount_value ++ "% off"
     | .FIXED => "Rs " ++ formatFixed2 offer.discount_value ++ " off")

/-- `calculate_discounted_price` (src/main.py:132-168): returns
`(final_price, offer_description)`; the description is `none` when no
offer was selected. -/
def calculate_discounted_price (original_price : ℚ) (offers : List Offer) :
    ℚ × Option String :=
  if offers = [] then (original_price, none)
  else
    match bestOfferAux original_price offers none 0 with
    | (some best_offer, best_discount) =>
        (max 0 (original_price - best_discount), some (offerDesc best_offer))
    | (none, _) => (original_price, none)

/-- Lexicographic comparison of character lists: `charListLe a b = true`
iff `a` precedes or equals `b` in dictionary order on code points. -/
def charListLe : List Char → List Char → Bool
  | [], _ => true
  | _ :: _, [] => false
  | a :: as, b :: bs =>
      if a < b then true else if b < a then false else charListLe as bs

/-- SQLite's default BINARY collation on TEXT columns: byte-wise
lexicographic comparison, which on the ASCII `YYYY-MM-DD` date strings
at hand is code-point lexicographic comparison — and coincides with
calendar order. -/
def strLe (a b : String) : Bool :=
  charListLe a.toList b.toList

/-- The `WHERE` clause of `DatabaseHandler.get_active_offers_for_item`
(src/main.py:696-707), evaluated on one offer row: `active = 1 AND
(item_id = ? OR item_id IS NULL) AND (start_date IS NULL OR start_date <= ?)
AND (end_date IS NULL OR end_date >= ?) AND (day_of_week IS NULL OR
day_of_week = ?)`, the `?`s being the queried item id, the ISO date of
`now` and the upper-cased weekday abbreviation of `now`. -/
def offerApplicable (item_id : Int) (current_date current_day : String)
    (offer : Offer) : Bool :=
  offer.active &&
  (offer.item_id == some item_id || offer.item_id == none) &&
  (match offer.start_date with
   | none => true
   | some s => strLe s current_date) &&
  (match offer.end_date with
   | none => true
   | some e => strLe current_date e) &&
  (match offer.day_of_week with
   | none => true
   | some d => d == current_day)

/-- `DatabaseHandler.get_active_offers_for_item` (src/main.py:688-722):
the offer rows satisfying the `WHERE` clause, with `now` sampled once
and passed here as `current_date`/`current_day`. -/
def get_active_offers_for_item (offers : List Offer) (item_id : Int)
    (current_date current_day : String) : List Offer :=
  offers.filter (offerApplicable item_id current_date current_day)

/-- One record of an order's `items` JSON payload:
`{item_name, price, qty}` (the price actually charged, i.e. the
discounted price of the cart line). -/
structure ItemLine where
  item_name : String
  price : ℚ
  qty : Nat
deriving DecidableEq, Repr

/-- A row of the `orders` table (src/main.py:377-386). -/
structure OrderRec where
  order_id : Nat
  user_id : String
  items : List ItemLine
  total_amount : ℚ
  token_number : String
  status : String
  timestamp : String
deriving DecidableEq, Repr

/-- The `orders` table plus its `AUTOINCREMENT` counter for
`order_id` (`INTEGER PRIMARY KEY AUTOINCREMENT`): every insert receives
`next_id` and bumps it, so ids are never reused. -/
structure Ledger where
  orders : List OrderRec
  next_id : Nat
deriving DecidableEq, Repr

/-- `DatabaseHandler._generate_unique_token` (src/main.py:494-501), on
an explicit stream of draws from `random.randint(1000, 9999)`: take the
next draw, return `str(draw)` if no existing order carries it, retry
otherwise.  An exhausted stream (result `none`) models the `while True`
loop still spinning — the source loop has no exit other than success. -/
def generate_unique_token (used : List String) : List Nat → Option String
  | [] => none
  | draw :: rest =>
      let token := toString draw
      if token ∈ used then generate_unique_token used rest else some token

/-- The token numbers of all orders currently stored
(`SELECT 1 FROM orders WHERE token_number = ?` probes this set). -/
def usedTokens (db : Ledger) : List String :=
  db.orders.map (·.token_number)

/-- `DatabaseHandler.create_order` (src/main.py:503-517): allocate a
unique token, then insert a row with status `'PLACED'` and the sampled
timestamp, returning the new ledger and `cur.lastrowid`.  `none` means
token allocation never completed, so nothing was inserted. -/
def create_order (db : Ledger) (user_id : String) (items : List ItemLine)
    (total_amount : ℚ) (timestamp : String) (draws : List Nat) :
    Option (Ledger × Nat) :=
  match generate_unique_token (usedTokens db) draws with
  | none => none
  | some token =>
      some (⟨db.orders ++
              [⟨db.next_id, user_id, items, total_amount, token, "PLACED", timestamp⟩],
             db.next_id + 1⟩,
            db.next_id)

/-- One summand of `sum(float(i["price"]) * int(i["qty"]) for i in cart_items)`
(src/main.py:872): the spec calls this `lineTotal`. -/
def lineTotal (line : ItemLine) : ℚ :=
  line.price * line.qty

/-- `round(total, 2)` of the summed line totals (src/main.py:872-873):
the spec calls this `cartTotal`. -/
def cartTotal (cart_items : List ItemLine) : ℚ :=
  round2 ((cart_items.map lineTotal).sum)

/-- `Order.create` (src/main.py:865-873): compute the cart total and
persist via `create_order`. -/
def Order_create (db : Ledger) (user_id : String) (cart_items : List ItemLine)
    (timestamp : String) (draws : List Nat) : Option (Ledger × Nat) :=
  create_order db user_id cart_items (cartTotal cart_items) timestamp draws

/-- `DatabaseHandler.update_order_status` (src/main.py:519-523):
`UPDATE orders SET status = ? WHERE order_id = ?` — overwrite the status
of every row whose `order_id` matches, unconditionally. -/
def update_order_status (db : Ledger) (order_id : Nat) (status : String) :
    Ledger :=
  { db with
    orders := db.orders.map fun o =>
      if o.order_id = order_id then { o with status := status } else o }

/-- The arguments of one `Order.create` call, with the `datetime.now()`
sample and the random draws it will consume made explicit. -/
structure CreateCall where
  user_id : String
  cart_items : List ItemLine
  timestamp : String
  draws : List Nat
deriving DecidableEq, Repr

/-- A sequence of back-to-back `Order.create` calls.  If token
allocation never completes the program is stuck inside the `while True`
loop, so no later call executes and the ledger stays as it was. -/
def runCreates (db : Ledger) : List CreateCall → Ledger
  | [] => db
  | c :: rest =>
      match Order_create db c.user_id c.cart_items c.timestamp c.draws with
      | none => db
      | some (db2, _) => runCreates db2 rest

/-- The date-bucket key of `revenue_per_day` (src/main.py:605-608).  For
the `YYYY-MM-DDTHH:MM:SS` timestamps `create_order` writes, the `try`
branch `datetime.fromisoformat(ts).date().isoformat()` is exactly the
text before the first `"T"`; the `except` branch is literally
`ts.split("T")[0]`. -/
def dayKey (ts : String) : String :=
  String.mk (ts.toList.takeWhile (· ≠ 'T'))

/-- The dict update `totals[d] = round(totals.get(d, 0.0) + amount, 2)`
(src/main.py:609), on an insertion-ordered association list. -/
def bumpBucket : List (String × ℚ) → String → ℚ → List (String × ℚ)
  | [], d, amount => [(d, round2 (0 + amount))]
  | (k, v) :: rest, d, amount =>
      if k = d then (k, round2 (v + amount)) :: rest
      else (k, v) :: bumpBucket rest d amount

/-- `DatabaseHandler.revenue_per_day` (src/main.py:599-610). -/
def revenue_per_day (orders : List OrderRec) : List (String × ℚ) :=
  orders.foldl
    (fun totals o => bumpBucket totals (dayKey o.timestamp) o.total_amount) []

/-- `q` is an exact multiple of `1/100`: the shape of every amount
`round(x, 2)` can return, hence of every `total_amount` the checkout
path (`Order.create`) ever stores. -/
def TwoDecimal (q : ℚ) : Prop :=
  ∃ n : ℤ, q = n / 100

/-! ## Lemmas about the best-offer selection loop -/

/-- If no offer beats the running best discount, the loop changes
nothing. -/
lemma bestOfferAux_of_forall_le (p : ℚ) (l : List Offer) (b : Option Offer)
    (bd : ℚ) (h : ∀ o ∈ l, discountAmount p o ≤ bd) :
    bestOfferAux p l b bd = (b, bd) := by
  induction l generalizing b bd with
  | nil => rfl
  | cons o rest ih =>
      have h1 : discountAmount p o ≤ bd := h o (List.mem_cons_self o rest)
      have h2 : ∀ o' ∈ rest, discountAmount p o' ≤ bd :=
        fun o' ho' => h o' (List.mem_cons_of_mem o ho')
      simp only [bestOfferAux]
      rw [if_neg (not_lt.mpr h1)]
      exact ih _ _ h2

/-- Running the loop over `l1 ++ o :: l2` where `o` strictly beats
everything before it, is not beaten by anything after it, and beats the
incoming best discount, ends with `o` selected. -/
lemma bestOfferAux_argmax (p : ℚ) (o : Offer) (l2 : List Offer) :
    ∀ (l1 : List Offer) (b : Option Offer) (bd : ℚ),
      (∀ o' ∈ l1, discountAmount p o' < discountAmount p o) →
      (∀ o' ∈ l2, discountAmount p o' ≤ discountAmount p o) →
      bd < discountAmount p o →
      bestOfferAux p (l1 ++ o :: l2) b bd = (some o, discountAmount p o) := by
  intro l1
  induction l1 with
  | nil =>
      intro b bd _ h2 hbd
      simp only [List.nil_append, bestOfferAux]
      rw [if_pos hbd]
      exact bestOfferAux_of_forall_le p l2 _ _ h2
  | cons a rest ih =>
      intro b bd h1 h2 hbd
      have ha : discountAmount p a < discountAmount p o :=
        h1 a (List.mem_cons_self a rest)
      have h1' : ∀ o' ∈ rest, discountAmount p o' < discountAmount p o :=
        fun o' ho' => h1 o' (List.mem_cons_of_mem a ho')
      simp only [List.cons_append, bestOfferAux]
      by_cases hc : bd < discountAmount p a
      · rw [if_pos hc]; exact ih _ _ h1' h2 ha
      · rw [if_neg hc]; exact ih _ _ h1' h2 hbd

/-- Every nonempty list has a first element attaining the maximum of
`f`: everything before it is strictly below, everything after it is at
most it. -/
lemma exists_first_argmax {α : Type} (f : α → ℚ) :
    ∀ l : List α, l ≠ [] →
      ∃ l1 x l2, l = l1 ++ x :: l2 ∧
        (∀ y ∈ l1, f y < f x) ∧ (∀ y ∈ l2, f y ≤ f x)
  | [], h => absurd rfl h
  | a :: t, _ => by
      rcases eq_or_ne t [] with rfl | hne
      · exact ⟨[], a, [], rfl, by simp, by simp⟩
      · obtain ⟨l1, x, l2, ht, h1, h2⟩ := exists_first_argmax f t hne
        by_cases hax : f x ≤ f a
        · refine ⟨[], a, t, rfl, by simp, ?_⟩
          intro y hy
          rw [ht] at hy
          rcases List.mem_append.mp hy with h | h
          · exact le_trans (le_of_lt (h1 y h)) hax
          · rcases List.mem_cons.mp h with rfl | h
            · exact hax
            · exact le_trans (h2 y h) hax
        · refine ⟨a :: l1, x, l2, by rw [ht, List.cons_append], ?_, h2⟩
          intro y hy
          rcases List.mem_cons.mp hy with rfl | h
          · exact not_le.mp hax
          · exact h1 y h

/-- The loop keeps `best_discount` equal to the discount of
`best_offer` whenever one is selected. -/
lemma bestOfferAux_fst_snd (p : ℚ) (l : List Offer) :
    ∀ (b : Option Offer) (bd : ℚ),
      (∀ x, b = some x → bd = discountAmount p x) →
      ∀ o, (bestOfferAux p l b bd).1 = some o →
        (bestOfferAux p l b bd).2 = discountAmount p o := by
  induction l with
  | nil =>
      intro b bd hb o h
      exact hb o h
  | cons a rest ih =>
      intro b bd hb o h
      simp only [bestOfferAux] at h ⊢
      by_cases hc : bd < discountAmount p a
      · rw [if_pos hc] at h ⊢
        refine ih _ _ ?_ o h
        intro x hx
        injection hx with hx
        rw [hx]
      · rw [if_neg hc] at h ⊢
        exact ih _ _ hb o h

/-! ## C2 — best-discount selection -/

/-- C2, counterexample: on a single applicable offer whose discount
amount is 0, the claim says the (trivially maximal, tie-to-first) offer
is selected; the code selects no offer at all — `best_offer` stays
`None` because the update is guarded by `discount > best_discount` with
`best_discount` starting at `0.0` — and returns the original price with
a null description. -/
theorem bestOffer_zero_discount_not_selected :
    (bestOfferAux 5 [⟨1, "Zero", none, .FIXED, 0, none, none, none, true⟩]
        none 0).1 ≠
      some ⟨1, "Zero", none, .FIXED, 0, none, none, none, true⟩ ∧
    calculate_discounted_price 5
        [⟨1, "Zero", none, .FIXED, 0, none, none, none, true⟩] = (5, none) := by
  decide

/-- C2 (amended): for every list of offers containing at least one with
a strictly positive discount amount (`original_price * value/100` for
PERCENTAGE, `value` for FIXED), the loop selects the first offer
attaining the maximal discount amount: every earlier offer is strictly
below it, every later one at most it.  (When every offer's discount
amount is `≤ 0` no offer is selected — see C10.) -/
theorem bestOffer_selects_first_max (p : ℚ) (offers : List Offer)
    (hpos : ∃ o ∈ offers, 0 < discountAmount p o) :
    ∃ l1 o l2, offers = l1 ++ o :: l2 ∧
      bestOfferAux p offers none 0 = (some o, discountAmount p o) ∧
      (∀ o' ∈ l1, discountAmount p o' < discountAmount p o) ∧
      (∀ o' ∈ l2, discountAmount p o' ≤ discountAmount p o) := by
  obtain ⟨w, hw, hwpos⟩ := hpos
  have hne : offers ≠ [] := by
    rintro rfl
    exact absurd hw (List.not_mem_nil w)
  obtain ⟨l1, o, l2, rfl, h1, h2⟩ :=
    exists_first_argmax (discountAmount p) offers hne
  have hwo : discountAmount p w ≤ discountAmount p o := by
    rcases List.mem_append.mp hw with h | h
    · exact le_of_lt (h1 w h)
    · rcases List.mem_cons.mp h with rfl | h
      · exact le_refl _
      · exact h2 w h
  have hod : 0 < discountAmount p o := lt_of_lt_of_le hwpos hwo
  exact ⟨l1, o, l2, rfl, bestOfferAux_argmax p o l2 l1 none 0 h1 h2 hod, h1, h2⟩

/-- C2 witness: two offers with the same discount amount 10 on a
50-rupee item; the first one wins the tie. -/
theorem bestOffer_selects_first_max_witness :
    ∃ l1 o l2,
      ([⟨1, "A", none, .PERCENTAGE, 20, none, none, none, true⟩,
        ⟨2, "B", none, .FIXED, 10, none, none, none, true⟩] : List Offer) =
        l1 ++ o :: l2 ∧
      bestOfferAux 50
          [⟨1, "A", none, .PERCENTAGE, 20, none, none, none, true⟩,
           ⟨2, "B", none, .FIXED, 10, none, none, none, true⟩] none 0 =
        (some o, discountAmount 50 o) ∧
      (∀ o' ∈ l1, discountAmount 50 o' < discountAmount 50 o) ∧
      (∀ o' ∈ l2, discountAmount 50 o' ≤ discountAmount 50 o) :=
  bestOffer_selects_first_max 50 _
    ⟨⟨1, "A", none, .PERCENTAGE, 20, none, none, none, true⟩, by decide, by decide⟩

/-! ## C3 — final price and description of the selected offer -/

/-- C3: whenever the loop selects an offer, `calculate_discounted_price`
returns `max 0 (original_price - discount_amount)` of that offer and its
description (`"<name>: <value>% off"` with 0 decimals for PERCENTAGE,
`"<name>: Rs <value> off"` with 2 decimals for FIXED); in particular a
PERCENTAGE offer of 20 on a 50-rupee item yields price 40 and
description `"Summer: 20% off"`. -/
theorem calculate_discounted_price_selected :
    (∀ (p : ℚ) (offers : List Offer) (o : Offer),
        (bestOfferAux p offers none 0).1 = some o →
        calculate_discounted_price p offers =
          (max 0 (p - discountAmount p o), some (offerDesc o))) ∧
    calculate_discounted_price 50
        [⟨7, "Summer", none, .PERCENTAGE, 20, none, none, none, true⟩] =
      (40, some "Summer: 20% off") := by
  constructor
  · intro p offers o h
    have hne : offers ≠ [] := by
      rintro rfl
      exact Option.noConfusion h
    have h2 := bestOfferAux_fst_snd p offers none 0
      (fun x hx => Option.noConfusion hx) o h
    have hr : bestOfferAux p offers none 0 = (some o, discountAmount p o) :=
      Prod.ext h h2
    unfold calculate_discounted_price
    rw [if_neg hne, hr]
  · decide

/-- C3 witness: the general clause applied at a concrete input. -/
theorem calculate_discounted_price_selected_witness :
    (bestOfferAux 40 [⟨3, "Fest", none, .FIXED, 6, none, none, none, true⟩]
        none 0).1 =
      some ⟨3, "Fest", none, .FIXED, 6, none, none, none, true⟩ ∧
    calculate_discounted_price 40
        [⟨3, "Fest", none, .FIXED, 6, none, none, none, true⟩] =
      (max 0 (40 - discountAmount 40 ⟨3, "Fest", none, .FIXED, 6, none, none, none, true⟩),
       some (offerDesc ⟨3, "Fest", none, .FIXED, 6, none, none, none, true⟩)) :=
  ⟨by decide, calculate_discounted_price_selected.1 40 _ _ (by decide)⟩

/-! ## C10 — all-zero discounts select nothing -/

/-- C10: when every offer's discount amount is exactly 0 (for example a
zero `discount_value`, or a PERCENTAGE offer on a price-0 item), no
offer is ever selected — the update requires `discount > best_discount`
with `best_discount` starting at 0 — and the original price is returned
with a null description. -/
theorem calculate_discounted_price_all_zero (p : ℚ) (offers : List Offer)
    (hne : offers ≠ [])
    (hz : ∀ o ∈ offers, discountAmount p o = 0) :
    calculate_discounted_price p offers = (p, none) := by
  unfold calculate_discounted_price
  rw [if_neg hne,
    bestOfferAux_of_forall_le p offers none 0 (fun o ho => le_of_eq (hz o ho))]

/-- C10 witness: a zero-valued PERCENTAGE offer together with a FIXED
offer of value 0 on a 7-rupee item select nothing. -/
theorem calculate_discounted_price_all_zero_witness :
    ([⟨1, "Z1", none, .PERCENTAGE, 0, none, none, none, true⟩,
      ⟨2, "Z2", none, .FIXED, 0, none, none, none, true⟩] : List Offer) ≠ [] ∧
    calculate_discounted_price 7
        [⟨1, "Z1", none, .PERCENTAGE, 0, none, none, none, true⟩,
         ⟨2, "Z2", none, .FIXED, 0, none, none, none, true⟩] = (7, none) :=
  ⟨by decide, calculate_discounted_price_all_zero 7 _ (by decide) (by decide)⟩

/-! ## C4 — applicability filter -/

/-- C4: `get_active_offers_for_item` returns exactly the offers
satisfying the applicability predicate of §3: `active = true` AND
(`item_id` null or equal to the queried item) AND (`start_date` null or
`≤ date(now)`) AND (`end_date` null or `≥ date(now)`) AND (`day_of_week`
null or equal to the weekday of now). -/
theorem get_active_offers_for_item_spec (offers : List Offer)
    (item_id : Int) (current_date current_day : String) (o : Offer) :
    o ∈ get_active_offers_for_item offers item_id current_date current_day ↔
      o ∈ offers ∧ o.active = true ∧
      (o.item_id = none ∨ o.item_id = some item_id) ∧
      (o.start_date = none ∨
        ∃ s, o.start_date = some s ∧ strLe s current_date = true) ∧
      (o.end_date = none ∨
        ∃ e, o.end_date = some e ∧ strLe current_date e = true) ∧
      (o.day_of_week = none ∨ o.day_of_week = some current_day) := by
  unfold get_active_offers_for_item
  rw [List.mem_filter]
  cases hs : o.start_date <;> cases he : o.end_date <;>
    cases hd : o.day_of_week <;>
      simp only [offerApplicable, hs, he, hd, Bool.and_eq_true, Bool.or_eq_true,
        beq_iff_eq, Option.some.injEq, reduceCtorEq, false_or, or_false,
        exists_eq_left', false_and, and_false, exists_false, true_and,
        and_true] <;>
      tauto

/-- C4 witness: a dated, item-bound offer passes the filter on a date
inside its window. -/
theorem get_active_offers_for_item_spec_witness :
    (⟨1, "A", some 3, .FIXED, 5, some "2025-01-01", some "2025-12-31", none,
        true⟩ : Offer) ∈
      get_active_offers_for_item
        [⟨1, "A", some 3, .FIXED, 5, some "2025-01-01", some "2025-12-31",
          none, true⟩]
        3 "2025-06-15" "SUN" :=
  (get_active_offers_for_item_spec _ 3 "2025-06-15" "SUN" _).mpr
    ⟨by decide, by decide, by decide,
     Or.inr ⟨"2025-01-01", by decide, by decide⟩,
     Or.inr ⟨"2025-12-31", by decide, by decide⟩, by decide⟩

/-! ## C5 — cart total is order- and split-invariant -/

/-- C5: the cart total (the rounded sum of `discounted_price * qty`) is
invariant under permuting the lines and under replacing one line of
qty 3 by three lines of qty 1 with the same item and price. -/
theorem cartTotal_perm_and_split :
    (∀ l1 l2 : List ItemLine, l1.Perm l2 → cartTotal l1 = cartTotal l2) ∧
    (∀ (pre post : List ItemLine) (nm : String) (pr : ℚ),
      cartTotal (pre ++ ⟨nm, pr, 3⟩ :: post) =
        cartTotal (pre ++ ⟨nm, pr, 1⟩ :: ⟨nm, pr, 1⟩ :: ⟨nm, pr, 1⟩ :: post)) := by
  constructor
  · intro l1 l2 hp
    unfold cartTotal
    rw [List.Perm.sum_eq (hp.map lineTotal)]
  · intro pre post nm pr
    unfold cartTotal
    congr 1
    simp only [List.map_append, List.sum_append, List.map_cons, List.sum_cons,
      lineTotal]
    push_cast
    ring

/-- C5 witness: swapping two concrete lines preserves the total. -/
theorem cartTotal_perm_and_split_witness :
    ([⟨"Tea", 8, 1⟩, ⟨"Coffee", 12, 2⟩] : List ItemLine).Perm
      [⟨"Coffee", 12, 2⟩, ⟨"Tea", 8, 1⟩] ∧
    cartTotal [⟨"Tea", 8, 1⟩, ⟨"Coffee", 12, 2⟩] =
      cartTotal [⟨"Coffee", 12, 2⟩, ⟨"Tea", 8, 1⟩] :=
  ⟨List.Perm.swap _ _ _,
   cartTotal_perm_and_split.1 _ _ (List.Perm.swap _ _ _)⟩

/-! ## C6 — status update frame property -/

/-- C6: `update_order_status` rewrites the status — to any string, with
no validation of the predecessor state — of exactly the rows whose
`order_id` matches, and leaves every other field (`order_id`, `user_id`,
`items`, `total_amount`, `token_number`, `timestamp`) of every row, and
every other row, unchanged. -/
theorem update_order_status_spec (db : Ledger) (oid : Nat) (st : String) :
    List.Forall₂
      (fun o o2 : OrderRec =>
        o2.order_id = o.order_id ∧ o2.user_id = o.user_id ∧
        o2.items = o.items ∧ o2.total_amount = o.total_amount ∧
        o2.token_number = o.token_number ∧ o2.timestamp = o.timestamp ∧
        o2.status = if o.order_id = oid then st else o.status)
      db.orders (update_order_status db oid st).orders := by
  unfold update_order_status
  rw [List.forall₂_map_right_iff, List.forall₂_same]
  intro o _
  by_cases h : o.order_id = oid <;> simp [h]

/-- C6 witness: on a two-order ledger, updating order 1 to READY leaves
order 2 (and all non-status fields of order 1) untouched. -/
theorem update_order_status_spec_witness :
    List.Forall₂
      (fun o o2 : OrderRec =>
        o2.order_id = o.order_id ∧ o2.user_id = o.user_id ∧
        o2.items = o.items ∧ o2.total_amount = o.total_amount ∧
        o2.token_number = o.token_number ∧ o2.timestamp = o.timestamp ∧
        o2.status = if o.order_id = 1 then "READY" else o.status)
      (⟨[⟨1, "u", [], 10, "1000", "PLACED", "t1"⟩,
         ⟨2, "v", [], 5, "1001", "PLACED", "t2"⟩], 3⟩ : Ledger).orders
      (update_order_status
        ⟨[⟨1, "u", [], 10, "1000", "PLACED", "t1"⟩,
          ⟨2, "v", [], 5, "1001", "PLACED", "t2"⟩], 3⟩ 1 "READY").orders :=
  update_order_status_spec _ 1 "READY"

/-! ## Lemmas about token allocation and order creation -/

/-- A token returned by the allocation loop is never one already in
use: every used draw is retried past. -/
lemma generate_unique_token_fresh (used : List String) :
    ∀ (draws : List Nat) (t : String),
      generate_unique_token used draws = some t → t ∉ used := by
  intro draws
  induction draws with
  | nil => intro t h; exact Option.noConfusion h
  | cons d rest ih =>
      intro t h
      simp only [generate_unique_token] at h
      by_cases hc : toString d ∈ used
      · rw [if_pos hc] at h
        exact ih t h
      · rw [if_neg hc] at h
        injection h with h
        rw [← h]
        exact hc

/-- If every draw in the stream collides with a used token, the loop is
still spinning when the stream ends: it returns nothing and, in
particular, never fails and never reuses a token. -/
lemma generate_unique_token_collide (used : List String) :
    ∀ draws : List Nat, (∀ d ∈ draws, toString d ∈ used) →
      generate_unique_token used draws = none := by
  intro draws
  induction draws with
  | nil => intro _; rfl
  | cons d rest ih =>
      intro h
      simp only [generate_unique_token]
      rw [if_pos (h d (List.mem_cons_self d rest))]
      exact ih fun x hx => h x (List.mem_cons_of_mem d hx)

/-- As soon as the stream contains a draw that is not in use, the loop
returns a fresh token. -/
lemma generate_unique_token_success (used : List String) :
    ∀ draws : List Nat, (∃ d ∈ draws, toString d ∉ used) →
      ∃ t, generate_unique_token used draws = some t ∧ t ∉ used := by
  intro draws
  induction draws with
  | nil =>
      rintro ⟨d, hd, -⟩
      exact absurd hd (List.not_mem_nil d)
  | cons a rest ih =>
      rintro ⟨d, hd, hfresh⟩
      simp only [generate_unique_token]
      by_cases hc : toString a ∈ used
      · rw [if_pos hc]
        apply ih
        rcases List.mem_cons.mp hd with rfl | h
        · exact absurd hc hfresh
        · exact ⟨d, h, hfresh⟩
      · rw [if_neg hc]
        exact ⟨toString a, rfl, hc⟩

/-- Shape of a completed `create_order` call: the allocated token, the
appended row (status `PLACED`, the sampled timestamp, id `next_id`), the
bumped id counter, and the returned `lastrowid`. -/
lemma create_order_some (db : Ledger) (u : String) (items : List ItemLine)
    (total : ℚ) (ts : String) (draws : List Nat) (db2 : Ledger) (oid : Nat)
    (h : create_order db u items total ts draws = some (db2, oid)) :
    ∃ tok, generate_unique_token (usedTokens db) draws = some tok ∧
      db2.orders =
        db.orders ++ [⟨db.next_id, u, items, total, tok, "PLACED", ts⟩] ∧
      db2.next_id = db.next_id + 1 ∧ oid = db.next_id := by
  unfold create_order at h
  cases hg : generate_unique_token (usedTokens db) draws with
  | none => rw [hg] at h; exact Option.noConfusion h
  | some tok =>
      rw [hg] at h
      injection h with h
      rw [Prod.mk.injEq] at h
      refine ⟨tok, rfl, ?_, ?_, h.2.symm⟩
      · rw [← h.1]
      · rw [← h.1]

/-! ## C7 — the token retry loop -/

/-- C7, counterexample: the claim that the retry loop is bounded — that
some bound `N` on the number of draws suffices for the loop to have
produced a token (or for the whole 1000–9999 space to be exhausted) —
is false: for any `N`, a stream of `N` colliding draws (`1000` against a
ledger already holding "1000") leaves the `while True` loop still
spinning, with the space far from exhausted.  (The loop also does not
"fail" on exhaustion: it has no exit other than success.) -/
theorem token_retry_loop_not_bounded :
    ¬ ∃ N : Nat, ∀ (used : List String) (draws : List Nat),
        N ≤ draws.length →
        (∃ t, generate_unique_token used draws = some t) ∨
        ∀ r : Nat, 1000 ≤ r → r ≤ 9999 → toString r ∈ used := by
  rintro ⟨N, h⟩
  have hall : ∀ d ∈ List.replicate N 1000, toString d ∈ ["1000"] := by
    intro d hd
    rw [List.eq_of_mem_replicate hd]
    decide
  have hnone := generate_unique_token_collide ["1000"] (List.replicate N 1000) hall
  rcases h ["1000"] (List.replicate N 1000) (by simp) with ⟨t, ht⟩ | hexh
  · rw [hnone] at ht
    exact Option.noConfusion ht
  · exact absurd (hexh 1001 (by norm_num) (by norm_num)) (by decide)

/-- C7 (amended): the retry loop never silently reuses a token — a
returned token is fresh; it terminates as soon as the random stream
yields an unused value; and while every draw collides (in particular
forever, when the whole space is in use) it keeps looping rather than
failing.  It is not bounded: no retry cap exists in the source. -/
theorem generate_unique_token_spec (used : List String) (draws : List Nat) :
    (∀ t, generate_unique_token used draws = some t → t ∉ used) ∧
    ((∀ d ∈ draws, toString d ∈ used) →
      generate_unique_token used draws = none) ∧
    ((∃ d ∈ draws, toString d ∉ used) →
      ∃ t, generate_unique_token used draws = some t ∧ t ∉ used) :=
  ⟨generate_unique_token_fresh used draws,
   generate_unique_token_collide used draws,
   generate_unique_token_success used draws⟩

/-- C7 witness: with "1000" in use, the stream 1000, 1001 first collides
and then succeeds with the fresh token "1001". -/
theorem generate_unique_token_spec_witness :
    (∃ d ∈ ([1000, 1001] : List Nat), toString d ∉ ["1000"]) ∧
    ∃ t, generate_unique_token ["1000"] [1000, 1001] = some t ∧
      t ∉ ["1000"] :=
  ⟨⟨1001, by decide, by decide⟩,
   (generate_unique_token_spec ["1000"] [1000, 1001]).2.2
     ⟨1001, by decide, by decide⟩⟩

/-! ## C1 — token uniqueness across all orders -/

/-- Running any sequence of `Order.create` calls preserves distinctness
of the stored token numbers: each completed call appends one row whose
token the allocation loop checked against every stored order. -/
lemma usedTokens_nodup_runCreates (calls : List CreateCall) :
    ∀ db : Ledger, (usedTokens db).Nodup →
      (usedTokens (runCreates db calls)).Nodup := by
  induction calls with
  | nil => intro db h; exact h
  | cons c rest ih =>
      intro db h
      simp only [runCreates]
      cases hoc : Order_create db c.user_id c.cart_items c.timestamp c.draws with
      | none => exact h
      | some pair =>
          obtain ⟨db2, oid⟩ := pair
          obtain ⟨tok, hg, hord, -, -⟩ :=
            create_order_some db c.user_id c.cart_items _ c.timestamp c.draws
              db2 oid hoc
          apply ih
          have hfresh := generate_unique_token_fresh (usedTokens db) c.draws tok hg
          have htok : usedTokens db2 = usedTokens db ++ [tok] := by
            simp [usedTokens, hord]
          rw [htok, List.nodup_append]
          refine ⟨h, List.nodup_singleton tok, ?_⟩
          intro a ha hmem
          rw [List.mem_singleton] at hmem


          subst hmem
          exact hfresh ha

/-- C1: starting from an empty ledger, no sequence of `Order.create`
calls ever stores two orders with the same `token_number` (stated with
the claim's proviso that fewer than 9000 orders exist; distinctness in
fact needs no proviso — the allocation loop re-checks the whole ledger
on every call). -/
theorem token_numbers_unique (calls : List CreateCall)
    (hcount : (runCreates ⟨[], 1⟩ calls).orders.length < 9000) :
    ((runCreates ⟨[], 1⟩ calls).orders.map (·.token_number)).Nodup :=
  usedTokens_nodup_runCreates calls ⟨[], 1⟩ (by simp [usedTokens])

/-- C1 witness: two back-to-back creations, the second of which first
draws the colliding 1000 and then the fresh 1001. -/
theorem token_numbers_unique_witness :
    (runCreates ⟨[], 1⟩
        [⟨"u", [⟨"Tea", 8, 1⟩], "t1", [1000]⟩,
         ⟨"v", [⟨"Tea", 8, 2⟩], "t2", [1000, 1001]⟩]).orders.length < 9000 ∧
    ((runCreates ⟨[], 1⟩
        [⟨"u", [⟨"Tea", 8, 1⟩], "t1", [1000]⟩,
         ⟨"v", [⟨"Tea", 8, 2⟩], "t2", [1000, 1001]⟩]).orders.map
      (·.token_number)).Nodup :=
  ⟨by decide,
   token_numbers_unique
     [⟨"u", [⟨"Tea", 8, 1⟩], "t1", [1000]⟩,
      ⟨"v", [⟨"Tea", 8, 2⟩], "t2", [1000, 1001]⟩] (by decide)⟩

/-! ## C9 — order creation -/

/-- C9: a completed `Order.create` on a non-empty cart appends exactly
one order with status `PLACED`, the sampled timestamp, and
`total_amount = round(Σ price*qty, 2)`; the returned id is fresh
(distinct from every stored order's id, given the `AUTOINCREMENT`
invariant that stored ids are below the counter); and a second call with
the identical cart returns a distinct id. -/
theorem Order_create_spec (db : Ledger) (u : String) (cart : List ItemLine)
    (ts ts2 : String) (draws draws2 : List Nat) (db2 : Ledger) (oid : Nat)
    (hne : cart ≠ [])
    (hids : ∀ o ∈ db.orders, o.order_id < db.next_id)
    (h : Order_create db u cart ts draws = some (db2, oid)) :
    (∃ token, db2.orders = db.orders ++
        [⟨oid, u, cart, round2 ((cart.map lineTotal).sum), token, "PLACED",
          ts⟩]) ∧
    oid ∉ db.orders.map (·.order_id) ∧
    ∀ db3 oid2, Order_create db2 u cart ts2 draws2 = some (db3, oid2) →
      oid2 ≠ oid := by
  obtain ⟨tok, -, hord, hnext, hoid⟩ :=
    create_order_some db u cart (cartTotal cart) ts draws db2 oid h
  refine ⟨⟨tok, by rw [hord, hoid]; rfl⟩, ?_, ?_⟩
  · rw [List.mem_map]
    rintro ⟨o, ho, hoe⟩
    have := hids o ho
    rw [hoe, hoid] at this
    exact lt_irrefl _ this
  · intro db3 oid2 h2
    obtain ⟨tok2, -, -, -, hoid2⟩ :=
      create_order_some db2 u cart (cartTotal cart) ts2 draws2 db3 oid2 h2
    rw [hoid2, hnext, hoid]
    exact Nat.succ_ne_self db.next_id

/-- C9 witness: creating a 3-Tea cart at price 8 on an empty ledger
appends one PLACED order totalling 24 with the fresh id 1. -/
theorem Order_create_spec_witness :
    ([⟨"Tea", 8, 3⟩] : List ItemLine) ≠ [] ∧
    (∃ token,
      (⟨[⟨1, "u1", [⟨"Tea", 8, 3⟩], 24, "1234", "PLACED", "t1"⟩], 2⟩ :
          Ledger).orders =
        (⟨[], 1⟩ : Ledger).orders ++
          [⟨1, "u1", [⟨"Tea", 8, 3⟩],
            round2 ((([⟨"Tea", 8, 3⟩] : List ItemLine).map lineTotal).sum),
            token, "PLACED", "t1"⟩]) ∧
    (1 : Nat) ∉ (⟨[], 1⟩ : Ledger).orders.map (·.order_id) ∧
    ∀ db3 oid2,
      Order_create ⟨[⟨1, "u1", [⟨"Tea", 8, 3⟩], 24, "1234", "PLACED", "t1"⟩], 2⟩
          "u1" [⟨"Tea", 8, 3⟩] "t2" [1234, 2000] = some (db3, oid2) →
      oid2 ≠ 1 :=
  ⟨by decide,
   (Order_create_spec ⟨[], 1⟩ "u1" [⟨"Tea", 8, 3⟩] "t1" "t2" [1234]
      [1234, 2000] ⟨[⟨1, "u1", [⟨"Tea", 8, 3⟩], 24, "1234", "PLACED", "t1"⟩], 2⟩
      1 (by decide) (by simp) (by decide)).1,
   (Order_create_spec ⟨[], 1⟩ "u1" [⟨"Tea", 8, 3⟩] "t1" "t2" [1234]
      [1234, 2000] ⟨[⟨1, "u1", [⟨"Tea", 8, 3⟩], 24, "1234", "PLACED", "t1"⟩], 2⟩
      1 (by decide) (by simp) (by decide)).2.1,
   (Order_create_spec ⟨[], 1⟩ "u1" [⟨"Tea", 8, 3⟩] "t1" "t2" [1234]
      [1234, 2000] ⟨[⟨1, "u1", [⟨"Tea", 8, 3⟩], 24, "1234", "PLACED", "t1"⟩], 2⟩
      1 (by decide) (by simp) (by decide)).2.2⟩

/-! ## Lemmas about rounding and the revenue buckets -/

/-- An exact integer rounds to itself. -/
lemma roundHalfEven_intCast (n : ℤ) : roundHalfEven (n : ℚ) = n := by
  unfold roundHalfEven
  rw [Int.floor_intCast, sub_self, if_pos (by norm_num : (0 : ℚ) < 1 / 2)]

/-- `round(x, 2)` is exact on amounts that already are multiples of
`1/100`. -/
lemma round2_twoDecimal {q : ℚ} (h : TwoDecimal q) : round2 q = q := by
  obtain ⟨n, rfl⟩ := h
  unfold round2
  have h100 : (n : ℚ) / 100 * 100 = (n : ℚ) := by field_simp
  rw [h100, roundHalfEven_intCast]

/-- Every result of `round(x, 2)` is a multiple of `1/100`. -/
lemma twoDecimal_round2 (q : ℚ) : TwoDecimal (round2 q) :=
  ⟨roundHalfEven (q * 100), rfl⟩

/-- Multiples of `1/100` are closed under addition. -/
lemma TwoDecimal.add {a b : ℚ} (ha : TwoDecimal a) (hb : TwoDecimal b) :
    TwoDecimal (a + b) := by
  obtain ⟨m, rfl⟩ := ha
  obtain ⟨n, rfl⟩ := hb
  exact ⟨m + n, by push_cast; ring⟩

/-- Every value stored in a bucket is a `round(_, 2)` result or was
already there, so bucket values stay multiples of `1/100`. -/
lemma bumpBucket_twoDecimal (d : String) (amt : ℚ) :
    ∀ totals : List (String × ℚ), (∀ x ∈ totals, TwoDecimal x.2) →
      ∀ x ∈ bumpBucket totals d amt, TwoDecimal x.2 := by
  intro totals
  induction totals with
  | nil =>
      intro _ x hx
      simp only [bumpBucket, List.mem_singleton] at hx
      subst hx
      exact twoDecimal_round2 _
  | cons kv rest ih =>
      obtain ⟨k, v⟩ := kv
      intro htot x hx
      simp only [bumpBucket] at hx
      by_cases hk : k = d
      · rw [if_pos hk] at hx
        rcases List.mem_cons.mp hx with rfl | h
        · exact twoDecimal_round2 _
        · exact htot x (List.mem_cons_of_mem _ h)
      · rw [if_neg hk] at hx
        rcases List.mem_cons.mp hx with rfl | h
        · exact htot (k, v) (List.mem_cons_self _ _)
        · exact ih (fun y hy => htot y (List.mem_cons_of_mem _ hy)) x h

/-- One dict update adds exactly the new amount to the sum of all bucket
values: the per-update `round` is exact because both the stored value
and the incoming `total_amount` are multiples of `1/100`. -/
lemma bumpBucket_sum (d : String) (amt : ℚ) (hamt : TwoDecimal amt) :
    ∀ totals : List (String × ℚ), (∀ x ∈ totals, TwoDecimal x.2) →
      ((bumpBucket totals d amt).map (·.2)).sum =
        (totals.map (·.2)).sum + amt := by
  intro totals
  induction totals with
  | nil =>
      intro _
      simp [bumpBucket, round2_twoDecimal hamt]
  | cons kv rest ih =>
      obtain ⟨k, v⟩ := kv
      intro htot
      simp only [bumpBucket]
      by_cases hk : k = d
      · rw [if_pos hk]
        have hv : TwoDecimal v := htot (k, v) (List.mem_cons_self _ _)
        simp only [List.map_cons, List.sum_cons]
        rw [round2_twoDecimal (hv.add hamt)]
        ring
      · rw [if_neg hk]
        simp only [List.map_cons, List.sum_cons]
        rw [ih (fun y hy => htot y (List.mem_cons_of_mem _ hy))]
        ring

/-- Folding orders into the day buckets accumulates exactly the sum of
their amounts, and keeps every bucket value a multiple of `1/100`. -/
lemma revenue_fold (orders : List OrderRec) :
    ∀ totals : List (String × ℚ),
      (∀ x ∈ totals, TwoDecimal x.2) →
      (∀ o ∈ orders, TwoDecimal o.total_amount) →
      ((orders.foldl
          (fun t o => bumpBucket t (dayKey o.timestamp) o.total_amount)
          totals).map (·.2)).sum =
        (totals.map (·.2)).sum + (orders.map (·.total_amount)).sum ∧
      ∀ x ∈ orders.foldl
          (fun t o => bumpBucket t (dayKey o.timestamp) o.total_amount)
          totals, TwoDecimal x.2 := by
  induction orders with
  | nil =>
      intro totals htot _
      exact ⟨by simp, htot⟩
  | cons o rest ih =>
      intro totals htot hord
      have hamt : TwoDecimal o.total_amount := hord o (List.mem_cons_self _ _)
      have h2 := bumpBucket_twoDecimal (dayKey o.timestamp) o.total_amount
        totals htot
      obtain ⟨ha, hb⟩ := ih _ h2 (fun x hx => hord x (List.mem_cons_of_mem _ hx))
      refine ⟨?_, hb⟩
      simp only [List.foldl_cons]
      rw [ha, bumpBucket_sum (dayKey o.timestamp) o.total_amount hamt totals htot]
      simp only [List.map_cons, List.sum_cons]
      ring

/-! ## C8 — revenue buckets sum to the grand total -/

/-- C8: for every order history whose amounts are exact 2-decimal values
(which is every history the checkout path can write, since `Order.create`
stores `round(total, 2)`), the per-day revenue buckets sum to the same
grand total as summing `total_amount` over all orders directly. -/
theorem revenue_per_day_grand_total (orders : List OrderRec)
    (h2dec : ∀ o ∈ orders, TwoDecimal o.total_amount) :
    ((revenue_per_day orders).map (·.2)).sum =
      (orders.map (·.total_amount)).sum := by
  have h := (revenue_fold orders []
    (fun x hx => absurd hx (List.not_mem_nil x)) h2dec).1
  simpa [revenue_per_day] using h

/-- C8 witness: three orders over two days (one day hit twice), amounts
10, 5 and 1/4 = 0.25. -/
theorem revenue_per_day_grand_total_witness :
    (∀ o ∈ ([⟨1, "u", [], 10, "1000", "PLACED", "2025-06-15T10:00:00"⟩,
             ⟨2, "u", [], 5, "1001", "PLACED", "2025-06-16T09:00:00"⟩,
             ⟨3, "u", [], (1 : ℚ)/4, "1002", "PLACED", "2025-06-15T11:00:00"⟩] :
        List OrderRec), TwoDecimal o.total_amount) ∧
    ((revenue_per_day
        [⟨1, "u", [], 10, "1000", "PLACED", "2025-06-15T10:00:00"⟩,
         ⟨2, "u", [], 5, "1001", "PLACED", "2025-06-16T09:00:00"⟩,
         ⟨3, "u", [], (1 : ℚ)/4, "1002", "PLACED", "2025-06-15T11:00:00"⟩]).map
      (·.2)).sum =
      (([⟨1, "u", [], 10, "1000", "PLACED", "2025-06-15T10:00:00"⟩,
         ⟨2, "u", [], 5, "1001", "PLACED", "2025-06-16T09:00:00"⟩,
         ⟨3, "u", [], (1 : ℚ)/4, "1002", "PLACED", "2025-06-15T11:00:00"⟩] :
        List OrderRec).map (·.total_amount)).sum := by
  have hdec : ∀ o ∈ ([⟨1, "u", [], 10, "1000", "PLACED", "2025-06-15T10:00:00"⟩,
      ⟨2, "u", [], 5, "1001", "PLACED", "2025-06-16T09:00:00"⟩,
      ⟨3, "u", [], (1 : ℚ)/4, "1002", "PLACED", "2025-06-15T11:00:00"⟩] :
      List OrderRec), TwoDecimal o.total_amount := by
    intro o ho
    simp only [List.mem_cons, List.not_mem_nil, or_false] at ho
    rcases ho with rfl | rfl | rfl
    · exact ⟨1000, by norm_num⟩
    · exact ⟨500, by norm_num⟩
    · exact ⟨25, by norm_num⟩
  exact ⟨hdec, revenue_per_day_grand_total _ hdec⟩
